import Mathlib

/-!
Shallow embedding of the coordinate-normalization pipeline of the
`coordinate-transformer` repository (`src/app/actions.ts`,
`src/lib/data-processing.ts`, and the data-worker source).

Modelling conventions:
* JavaScript numbers are modelled as exact rationals (`ℚ`); the `NaN`
  sentinel is modelled by `Option.none` (so a JS number is `Option ℚ`).
  IEEE-754 rounding and the `Infinity` values are abstracted away: every
  numeric literal reaching the parsers here is a finite decimal.
* JavaScript strings are Lean `String`s; the string operations used by the
  source (`trim`, `split` on a one-character separator, `toLowerCase`,
  `toUpperCase`, `includes`) are given explicit executable models below.
  `trim` uses the ASCII whitespace set; `toLowerCase` lowers ASCII letters
  (the source only ever compares ASCII markers case-insensitively).
* A CSV row (a JS object produced by `Papa.parse` with `header: true`) is
  an association list from header string to cell string; `row[k]` with an
  absent key (JS `undefined`) and the empty string are both falsy, so both
  are modelled by the default value `""` where the source tests truthiness.
* The `Map` used as a memo cache is an association list threaded through
  explicitly as state.
-/

/-- Decides whether `pat` occurs as a contiguous run inside `cs`; models
JS `String.prototype.includes`. -/
def infixCheck (pat : List Char) : List Char → Bool
  | [] => pat.isEmpty
  | c :: cs => pat.isPrefixOf (c :: cs) || infixCheck pat cs

/-- Models `s.includes(pat)` on JS strings. -/
def strIncludes (s pat : String) : Bool := infixCheck pat.data s.data

/-- Leading and trailing whitespace removed; models `String.prototype.trim`
restricted to the ASCII whitespace characters. -/
def trimList (cs : List Char) : List Char :=
  (((cs.dropWhile Char.isWhitespace).reverse).dropWhile Char.isWhitespace).reverse

/-- Models `s.trim()`. -/
def jsTrim (s : String) : String := ⟨trimList s.data⟩

/-- Splits on every occurrence of the character `sep`, keeping empty pieces;
models `s.split(sep)` for a one-character separator (all splits in the
source use `'/'`, `'-'` or `'+'`). `""` splits to `[""]` as in JS. -/
def splitOnChar (sep : Char) : List Char → List (List Char)
  | [] => [[]]
  | c :: rest =>
    if c = sep then [] :: splitOnChar sep rest
    else
      match splitOnChar sep rest with
      | [] => [[c]]
      | g :: gs => (c :: g) :: gs

/-- Models `s.split(sep)` returning strings. -/
def jsSplitOnChar (sep : Char) (s : String) : List String :=
  (splitOnChar sep s.data).map (fun l => ⟨l⟩)

/-- Models `s.toLowerCase()` (ASCII range). -/
def jsToLower (s : String) : String := ⟨s.data.map Char.toLower⟩

/-- Numeric value of a run of decimal digit characters, most significant
first. -/
def digitsVal (ds : List Char) : ℕ :=
  ds.foldl (fun n c => 10 * n + (c.toNat - 48)) 0

/-- Applies a JS exponent suffix (optional sign then digits) to a mantissa;
when no digit follows, the exponent part is not part of the longest valid
numeric prefix and is ignored. -/
def applySignedExp (mant : ℚ) (cs : List Char) : ℚ :=
  match cs with
  | '-' :: ds =>
    let d := ds.takeWhile Char.isDigit
    if d.isEmpty then mant else mant / ((10 : ℚ) ^ digitsVal d)
  | '+' :: ds =>
    let d := ds.takeWhile Char.isDigit
    if d.isEmpty then mant else mant * ((10 : ℚ) ^ digitsVal d)
  | ds =>
    let d := ds.takeWhile Char.isDigit
    if d.isEmpty then mant else mant * ((10 : ℚ) ^ digitsVal d)

/-- Applies the `e`/`E` exponent suffix of a JS numeric literal if present. -/
def applyExponent (mant : ℚ) (cs : List Char) : ℚ :=
  match cs with
  | 'e' :: rest => applySignedExp mant rest
  | 'E' :: rest => applySignedExp mant rest
  | _ => mant

/-- Models `Number.parseFloat`: skip leading whitespace, then read the
longest prefix of the form `[+-]? digits [. digits] [eE [+-] digits]`;
`none` models the `NaN` result when no digit is found. The `Infinity`
literal is not modelled (no infinite rationals); it cannot arise from the
coordinate parser, whose tokens contain only digits, dots and dashes. -/
def parseFloat (s : String) : Option ℚ :=
  let cs0 := s.data.dropWhile Char.isWhitespace
  let signNeg : Bool := cs0.head? = some '-'
  let cs := if cs0.head? = some '-' ∨ cs0.head? = some '+' then cs0.tail else cs0
  let intPart := cs.takeWhile Char.isDigit
  let rest := cs.dropWhile Char.isDigit
  let fracPart := if rest.head? = some '.' then rest.tail.takeWhile Char.isDigit else []
  let rest2 := if rest.head? = some '.' then rest.tail.dropWhile Char.isDigit else rest
  if intPart.isEmpty ∧ fracPart.isEmpty then none
  else
    let mant : ℚ :=
      (digitsVal intPart : ℚ) + (digitsVal fracPart : ℚ) / ((10 : ℚ) ^ fracPart.length)
    let mant := if signNeg then -mant else mant
    some (applyExponent mant rest2)

/-- The per-component parses of a DMS token: split on `-`, trim each piece,
`parseFloat` it. This is the `parts` array of `dmsToDecimal`. -/
def dmsParts (dmsStr : String) : List (Option ℚ) :=
  (jsSplitOnChar '-' dmsStr).map (fun s => parseFloat (jsTrim s))

/-- `dmsToDecimal` from `src/app/actions.ts` (byte-identical copies live in
`src/lib/data-processing.ts` and the worker source): degrees plus
minutes/60 plus seconds/3600, using as many components as are present;
`none` models the `NaN` sentinel returned when any component fails to
parse. -/
def dmsToDecimal (dmsStr : String) : Option ℚ :=
  let parts := dmsParts dmsStr
  if parts.any Option.isNone then none
  else
    let vals := parts.map (fun p => p.getD 0)
    some ((if 1 ≤ parts.length then vals.getD 0 0 else 0)
        + (if 2 ≤ parts.length then vals.getD 1 0 / 60 else 0)
        + (if 3 ≤ parts.length then vals.getD 2 0 / 3600 else 0))

/-- Models `half.trim().match(/^([\d.-]+)([NS])$/i)` (with `dirs` the two
hemisphere letters): succeeds when the trimmed string is a nonempty run
over digits, `.` and `-` followed by a single hemisphere letter,
case-insensitively; returns the run and the letter (match groups 1, 2). -/
def matchNumsDir (s : String) (dirs : List Char) : Option (String × Char) :=
  let cs := (jsTrim s).data
  match cs.getLast? with
  | none => none
  | some dir =>
    let nums := cs.dropLast
    if dir.toUpper ∈ dirs ∧ nums ≠ [] ∧ nums.all (fun c => c.isDigit || c = '.' || c = '-')
    then some (⟨nums⟩, dir) else none

/-- The `i`-th element of a piece list, JS-style: an out-of-range index is
`undefined`, collapsed to `""` (falsy) as everywhere else. Models the array
destructuring `const [latStrFull, lonStrFull] = coordPairStr.split('/')`. -/
def nthPiece : List String → ℕ → String
  | [], _ => ""
  | s :: _, 0 => s
  | _ :: rest, n + 1 => nthPiece rest n

/-- `parseSingleCoordinateEntry` from `src/app/actions.ts` (the cache-free
parser): rejects empty, blank and placeholder inputs, destructures the
`/`-split into its first two pieces (JS array destructuring ignores any
further pieces; a missing piece is `undefined`, falsy like `""`), matches
each half against the hemisphere pattern, converts with `dmsToDecimal`,
negates on `S`/`W`, and rejects `NaN` or out-of-range results. -/
def parseSingleCoordinateEntry (coordPairStr : String) : Option (ℚ × ℚ) :=
  if coordPairStr = "" ∨ jsTrim coordPairStr = "" ∨ coordPairStr = "-" ∨ coordPairStr = "??"
  then none
  else
    let halves := jsSplitOnChar '/' coordPairStr
    let latStrFull := nthPiece halves 0
    let lonStrFull := nthPiece halves 1
    if latStrFull = "" ∨ lonStrFull = "" then none
    else
      match matchNumsDir latStrFull ['N', 'S'] with
      | none => none
      | some (latNums, latDir) =>
        let latVal :=
          if latDir.toUpper = 'S' then (dmsToDecimal latNums).map Neg.neg
          else dmsToDecimal latNums
        match matchNumsDir lonStrFull ['E', 'W'] with
        | none => none
        | some (lonNums, lonDir) =>
          let lonVal :=
            if lonDir.toUpper = 'W' then (dmsToDecimal lonNums).map Neg.neg
            else dmsToDecimal lonNums
          match latVal, lonVal with
          | some la, some lo =>
            if la < -90 ∨ la > 90 ∨ lo < -180 ∨ lo > 180 then none
            else some (la, lo)
          | _, _ => none

/-! ## Record materializer (`processUploadedCsv`, `src/app/actions.ts`)

The CSV decoding itself (`Papa.parse`) is an external library; the
materializer is modelled from the point where the parsed row objects
exist, i.e. as a function of the row list. -/

/-- A parsed CSV row: association list from (trimmed) header to cell value.
Keys are assumed unique per row (JS object properties). -/
abbrev RawRow := List (String × String)

/-- Models `row[k]`, with JS `undefined` (absent key) collapsed to `""`
(both are falsy everywhere the source tests the value). -/
def rowGet (row : RawRow) (k : String) : String := (row.lookup k).getD ""

/-- The `ProcessedPoint` record of `src/app/actions.ts` (identical to the
`Point` interface of `src/lib/data-processing.ts`). -/
structure ProcessedPoint where
  id : String
  latitude : ℚ
  longitude : ℚ
  originalName : String
  category : String
  originalCoords : String
  rowData : RawRow
deriving DecidableEq

/-- Valid exponent tail of a JS `StrNumericLiteral`: optional sign then at
least one digit, nothing after. -/
def expTailValid : List Char → Bool
  | '-' :: ds => !ds.isEmpty && ds.all Char.isDigit
  | '+' :: ds => !ds.isEmpty && ds.all Char.isDigit
  | ds => !ds.isEmpty && ds.all Char.isDigit

/-- Whether `cs` is exactly an (unsigned) JS decimal literal
`digits [. digits] [eE [+-] digits]` with at least one mantissa digit. -/
def isStrDecimalLiteral (cs : List Char) : Bool :=
  let intPart := cs.takeWhile Char.isDigit
  let r1 := cs.dropWhile Char.isDigit
  let fracPart := if r1.head? = some '.' then r1.tail.takeWhile Char.isDigit else []
  let r2 := if r1.head? = some '.' then r1.tail.dropWhile Char.isDigit else r1
  if intPart.isEmpty ∧ fracPart.isEmpty then false
  else
    match r2 with
    | [] => true
    | 'e' :: t => expTailValid t
    | 'E' :: t => expTailValid t
    | _ => false

/-- ASCII hexadecimal digit. -/
def isHexDigitChar (c : Char) : Bool :=
  c.isDigit || ('a' ≤ c && c ≤ 'f') || ('A' ≤ c && c ≤ 'F')

/-- Whether `cs` is exactly a JS `0x`/`0o`/`0b` integer literal (no sign
allowed before these forms). -/
def isNonDecimalIntLiteral : List Char → Bool
  | '0' :: b :: ds =>
    if b = 'x' ∨ b = 'X' then !ds.isEmpty && ds.all isHexDigitChar
    else if b = 'o' ∨ b = 'O' then !ds.isEmpty && ds.all (fun c => '0' ≤ c && c ≤ '7')
    else if b = 'b' ∨ b = 'B' then !ds.isEmpty && ds.all (fun c => c = '0' || c = '1')
    else false
  | _ => false

/-- Models `isNaN(Number(v))`: `Number` trims, maps `""` to `0`, accepts an
optionally signed decimal literal or `Infinity`, or an unsigned
`0x`/`0o`/`0b` literal; everything else is `NaN`. -/
def jsNumberIsNaN (s : String) : Bool :=
  let t := jsTrim s
  if t = "" then false
  else
    let cs := t.data
    let body :=
      match cs with
      | '-' :: rest => rest
      | '+' :: rest => rest
      | _ => cs
    if body = ['I', 'n', 'f', 'i', 'n', 'i', 't', 'y'] then false
    else if isStrDecimalLiteral body then false
    else !isNonDecimalIntLiteral cs

/-- Coordinate-column resolution: first header whose lowercased form
contains `"coördinaten"` or `"coordinates"`. -/
def findCoordHeaderKey (keys : List String) : Option String :=
  keys.find? (fun k =>
    strIncludes (jsToLower k) "coördinaten" || strIncludes (jsToLower k) "coordinates")

/-- Name-column resolution: first header whose lowercased form contains one
of the bilingual name-header markers. -/
def findNameHeaderKey (keys : List String) : Option String :=
  keys.find? (fun k =>
    strIncludes (jsToLower k) "oorspr. naam op de kaart" ||
    strIncludes (jsToLower k) "original name on the map")

/-- Category-column resolution: exact lowercased match first, then the
substring-with-guard fallback (header contains a marker and the first row
value is nonempty and not purely numeric). -/
def findCategoryHeaderKey (firstRow : RawRow) (keys : List String) : Option String :=
  match keys.find? (fun k =>
      jsToLower k = "soortnaam/category" || jsToLower k = "soortnaam" ||
      jsToLower k = "category") with
  | some k => some k
  | none =>
    keys.find? (fun k =>
      (strIncludes (jsToLower k) "soortnaam" || strIncludes (jsToLower k) "category")
      && rowGet firstRow k ≠ "" && jsNumberIsNaN (rowGet firstRow k))

/-- The trimmed `+`-split segments of a row's coordinate field
(`coordString.split('+').map(s => s.trim())`). -/
def rowSegments (coordKey : String) (row : RawRow) : List String :=
  (jsSplitOnChar '+' (rowGet row coordKey)).map jsTrim

/-- The inner per-segment loop of the materializer: skip placeholder
segments, parse the rest, emit one record per successful parse with the
running counter. -/
def processParts (originalName pushCategory : String) (row : RawRow) :
    ℕ → List String → List ProcessedPoint × ℕ
  | ctr, [] => ([], ctr)
  | ctr, part :: rest =>
    if part = "" ∨ part = "-" ∨ part = "??" then
      processParts originalName pushCategory row ctr rest
    else
      match parseSingleCoordinateEntry part with
      | some (la, lo) =>
        let out := processParts originalName pushCategory row (ctr + 1) rest
        ({ id := "point-" ++ Nat.repr ctr, latitude := la, longitude := lo,
           originalName := originalName, category := pushCategory,
           originalCoords := part, rowData := row } :: out.1, out.2)
      | none => processParts originalName pushCategory row ctr rest

/-- One iteration of the row loop of `processUploadedCsv` (lines 129-162 of
`src/app/actions.ts`): resolve name and category (with their `"N/A"` /
`"Unknown"` fallbacks; the push-time `category || 'Unknown'` is folded in,
the category being fixed per row), skip empty/placeholder coordinate
fields, and expand the `+`-split segments. -/
def processRow (coordKey : String) (nameKey catKey : Option String) (ctr : ℕ)
    (row : RawRow) : List ProcessedPoint × ℕ :=
  let coordString := rowGet row coordKey
  let originalName :=
    match nameKey with
    | some nk => if rowGet row nk = "" then "N/A" else rowGet row nk
    | none => "N/A"
  let category :=
    match catKey with
    | some ck => if rowGet row ck = "" then "Unknown" else jsTrim (rowGet row ck)
    | none => "Unknown"
  if coordString = "" ∨ jsTrim coordString = "" ∨ coordString = "-" ∨ coordString = "??"
  then ([], ctr)
  else
    processParts originalName (if category = "" then "Unknown" else category) row ctr
      (rowSegments coordKey row)

/-- The row loop with its running `pointIdCounter`. -/
def processRows (coordKey : String) (nameKey catKey : Option String) :
    ℕ → List RawRow → List ProcessedPoint
  | _, [] => []
  | ctr, row :: rest =>
    (processRow coordKey nameKey catKey ctr row).1 ++
      processRows coordKey nameKey catKey (processRow coordKey nameKey catKey ctr row).2 rest

/-- Result of `processUploadedCsv`: the emitted points plus the optional
error message of the explicit failure result. -/
structure ProcessResult where
  points : List ProcessedPoint
  error : Option String
deriving DecidableEq

/-- `processUploadedCsv` from `src/app/actions.ts`, modelled from the point
where `Papa.parse` has produced the row objects: empty data and a missing
coordinate column are explicit failure results with zero points; the
counter starts at 0 for each pass. The function is total, so no exception
escapes (the source's `try`/`catch` wrapper never fires on these paths). -/
def processUploadedCsv (data : List RawRow) : ProcessResult :=
  match data with
  | [] => { points := [], error := some "CSV is empty or has no data rows." }
  | firstRow :: _ =>
    let firstRowKeys := firstRow.map Prod.fst
    match findCoordHeaderKey firstRowKeys with
    | none =>
      { points := [],
        error := some "Required 'Coordinates' column not found. Please check CSV format." }
    | some coordKey =>
      { points :=
          processRows coordKey (findNameHeaderKey firstRowKeys)
            (findCategoryHeaderKey firstRow firstRowKeys) 0 data,
        error := none }

/-! ## Filter/sort utilities

`createOptimizedFilter` from `src/lib/data-processing.ts` and the worker's
`optimizedFilter`. The JS `Array.prototype.sort` is stable and orders by
the comparator; it is modelled by `List.mergeSort` with the relation
`cmp a b ≤ 0`. `localeCompare` (used by `createOptimizedFilter` on the
lowercased strings) and the worker's plain `<`/`>` string comparison are
both modelled as the lexicographic order on the lowercased strings. -/

/-- Sort specification: column key plus direction (`asc := true`). -/
structure SortConfig where
  key : String
  asc : Bool
deriving DecidableEq

/-- Category filter of `createOptimizedFilter`: skipped for the falsy
filter `""` and for the `'all'` sentinel. -/
def categoryStep (categoryFilter : String) (pts : List ProcessedPoint) :
    List ProcessedPoint :=
  if categoryFilter ≠ "" ∧ categoryFilter ≠ "all" then
    pts.filter (fun p => p.category == categoryFilter)
  else pts

/-- Search predicate of `createOptimizedFilter`: case-insensitive substring
match against name, category, coordinate segment, then every row value
(`q` is the already-lowercased query). -/
def matchesSearch (q : String) (p : ProcessedPoint) : Bool :=
  strIncludes (jsToLower p.originalName) q || strIncludes (jsToLower p.category) q ||
  strIncludes (jsToLower p.originalCoords) q ||
  (p.rowData.map Prod.snd).any (fun v => strIncludes (jsToLower v) q)

/-- Search filter of `createOptimizedFilter`: applied only when the query
is not blank; the query is lowercased but not trimmed. -/
def searchStep (searchQuery : String) (pts : List ProcessedPoint) :
    List ProcessedPoint :=
  if jsTrim searchQuery ≠ "" then pts.filter (matchesSearch (jsToLower searchQuery))
  else pts

/-- The two virtual numeric sort fields. -/
def isNumericSortKey (k : String) : Bool :=
  k == "Computed Latitude" || k == "Computed Longitude"

/-- Numeric sort value (only consulted for the numeric keys). -/
def numSortValue (k : String) (p : ProcessedPoint) : ℚ :=
  if k = "Computed Latitude" then p.latitude else p.longitude

/-- String sort value: the virtual coordinate-segment field or the raw row
column (absent column defaulting to `""` via `|| ''`). -/
def strSortValue (k : String) (p : ProcessedPoint) : String :=
  if k = "Parsed Coordinate Segment" then p.originalCoords else rowGet p.rowData k

/-- The ordering induced by the sort comparator: `sortLe cfg a b` models
`cmp(a, b) <= 0`. Numeric fields compare numerically (`a - b` for `asc`),
string fields lexicographically on the lowercased values, with `desc`
swapping the operands. -/
def sortLe (cfg : SortConfig) (a b : ProcessedPoint) : Bool :=
  if isNumericSortKey cfg.key then
    if cfg.asc then decide (numSortValue cfg.key a ≤ numSortValue cfg.key b)
    else decide (numSortValue cfg.key b ≤ numSortValue cfg.key a)
  else
    if cfg.asc then
      decide (jsToLower (strSortValue cfg.key a) ≤ jsToLower (strSortValue cfg.key b))
    else
      decide (jsToLower (strSortValue cfg.key b) ≤ jsToLower (strSortValue cfg.key a))

/-- Sort phase: a stable sort by the comparator when a sort spec is given
(`[...currentPoints].sort(...)`), the input unchanged otherwise. -/
def sortStep (cfg : Option SortConfig) (pts : List ProcessedPoint) :
    List ProcessedPoint :=
  match cfg with
  | some c => pts.mergeSort (sortLe c)
  | none => pts

/-- `createOptimizedFilter` from `src/lib/data-processing.ts`: category
filter, then search filter, then sort. -/
def createOptimizedFilter (pts : List ProcessedPoint) (categoryFilter searchQuery : String)
    (sortConfig : Option SortConfig) : List ProcessedPoint :=
  sortStep sortConfig (searchStep searchQuery (categoryStep categoryFilter pts))

/-- Category filter of the worker's `optimizedFilter`: the guard is
`categoryFilter && categoryFilter !== ''`, whose second conjunct is
redundant — only the empty string passes through, `'all'` is compared as a
literal category. -/
def workerCategoryStep (categoryFilter : String) (pts : List ProcessedPoint) :
    List ProcessedPoint :=
  if categoryFilter ≠ "" then pts.filter (fun p => p.category == categoryFilter)
  else pts

/-- Search filter of the worker's `optimizedFilter`: lowercased and trimmed
query, matched against name, category and coordinate segment only. -/
def workerSearchStep (searchQuery : String) (pts : List ProcessedPoint) :
    List ProcessedPoint :=
  if searchQuery ≠ "" ∧ jsTrim searchQuery ≠ "" then
    let q := jsTrim (jsToLower searchQuery)
    pts.filter (fun p =>
      strIncludes (jsToLower p.originalName) q || strIncludes (jsToLower p.category) q ||
      strIncludes (jsToLower p.originalCoords) q)
  else pts

/-- `optimizedFilter` from the worker source (`src/unnamed/part_003`). Its
comparator lowercases both values when both are strings and compares with
`<`/`>`; numeric and string cases coincide with `sortLe`, so the sort
phase is shared. -/
def optimizedFilter (pts : List ProcessedPoint) (categoryFilter searchQuery : String)
    (sortConfig : Option SortConfig) : List ProcessedPoint :=
  sortStep sortConfig (workerSearchStep searchQuery (workerCategoryStep categoryFilter pts))

/-! ## The memoized parser (`src/lib/data-processing.ts`) -/

/-- The `coordinateCache` map, threaded explicitly: raw token to parse
result (`none` in the value position is the cached "unparseable" marker). -/
abbrev CoordCache := List (String × Option (ℚ × ℚ))

/-- `parseSingleCoordinateEntry` from `src/lib/data-processing.ts`: the
same parsing logic as the cache-free version, except that after the
placeholder guard it first consults the cache, and every computed outcome
is stored under the raw input token before being returned. -/
def parseSingleCoordinateEntryCached (cache : CoordCache) (coordPairStr : String) :
    Option (ℚ × ℚ) × CoordCache :=
  if coordPairStr = "" ∨ jsTrim coordPairStr = "" ∨ coordPairStr = "-" ∨ coordPairStr = "??"
  then (none, cache)
  else
    match cache.lookup coordPairStr with
    | some v => (v, cache)
    | none =>
      let halves := jsSplitOnChar '/' coordPairStr
      let latStrFull := nthPiece halves 0
      let lonStrFull := nthPiece halves 1
      if latStrFull = "" ∨ lonStrFull = "" then (none, (coordPairStr, none) :: cache)
      else
        match matchNumsDir latStrFull ['N', 'S'] with
        | none => (none, (coordPairStr, none) :: cache)
        | some (latNums, latDir) =>
          let latVal :=
            if latDir.toUpper = 'S' then (dmsToDecimal latNums).map Neg.neg
            else dmsToDecimal latNums
          match matchNumsDir lonStrFull ['E', 'W'] with
          | none => (none, (coordPairStr, none) :: cache)
          | some (lonNums, lonDir) =>
            let lonVal :=
              if lonDir.toUpper = 'W' then (dmsToDecimal lonNums).map Neg.neg
              else dmsToDecimal lonNums
            match latVal, lonVal with
            | some la, some lo =>
              if la < -90 ∨ la > 90 ∨ lo < -180 ∨ lo > 180 then
                (none, (coordPairStr, none) :: cache)
              else (some (la, lo), (coordPairStr, some (la, lo)) :: cache)
            | _, _ => (none, (coordPairStr, none) :: cache)

/-- A cache state is well formed when every stored entry equals the
cache-free parse of its key. The empty cache is well formed, and (as
proved below) well-formedness is preserved by every call, so this captures
exactly the states reachable from any sequence of prior calls. -/
def CacheWF (cache : CoordCache) : Prop :=
  ∀ k v, cache.lookup k = some v → v = parseSingleCoordinateEntry k

/-- Runs the memoized parser over a sequence of tokens, threading the
cache, and collects the results. -/
def runCachedSeq : CoordCache → List String → List (Option (ℚ × ℚ)) × CoordCache
  | cache, [] => ([], cache)
  | cache, t :: ts =>
    let r := parseSingleCoordinateEntryCached cache t
    let rest := runCachedSeq r.2 ts
    (r.1 :: rest.1, rest.2)

/-- Decimal digit expansion of a natural number, most significant digit
first; reference function used to reason about `Nat.repr` (the `point-<N>`
identifiers). -/
def natDigits (n : ℕ) : List Char :=
  if _h : n < 10 then [Nat.digitChar n]
  else natDigits (n / 10) ++ [Nat.digitChar (n % 10)]
decreasing_by exact Nat.div_lt_self (by omega) (by omega)

section RatReduction

attribute [local semireducible] Rat.add Rat.mul Rat.inv Rat.sub Rat.ofScientific

example : parseFloat "12" = some 12 := by decide
example : parseFloat "12.51" = some (1251 / 100) := by decide
example : parseFloat "" = none := by decide
example : dmsToDecimal "12-30" = some (25 / 2) := by decide
example : parseSingleCoordinateEntry "12-30N/92-50E" = some (25 / 2, 557 / 6) := by decide
example : parseSingleCoordinateEntry "??" = none := by decide

example :
    (processUploadedCsv
      [[("Coordinates", "12-30N/92-50E")],
       [("Coordinates", "12-30N/92-50E+13-00N/93-00E")],
       [("Coordinates", "??")]]).points.length = 3 := by decide

example :
    (processUploadedCsv [[("Name", "x")]]).error =
      some "Required 'Coordinates' column not found. Please check CSV format." := by decide

/-! ### Helper lemmas on the string primitives and on `Nat.repr` -/

theorem stringMk_eq_empty_iff (cs : List Char) : (⟨cs⟩ : String) = "" ↔ cs = [] := by
  constructor
  · intro h
    have := congrArg String.data h
    simpa using this
  · intro h
    subst h
    rfl

theorem trimList_eq_nil_iff (cs : List Char) :
    trimList cs = [] ↔ ∀ c ∈ cs, c.isWhitespace := by
  constructor
  · intro h c hc
    have hrev : (cs.dropWhile Char.isWhitespace).reverse.dropWhile Char.isWhitespace = [] := by
      simpa [trimList] using h
    have hdrop : ∀ x ∈ (cs.dropWhile Char.isWhitespace).reverse, x.isWhitespace :=
      List.dropWhile_eq_nil_iff.mp hrev
    have hc2 : c ∈ cs.takeWhile Char.isWhitespace ++ cs.dropWhile Char.isWhitespace := by
      rw [List.takeWhile_append_dropWhile]
      exact hc
    rcases List.mem_append.mp hc2 with h1 | h2
    · exact List.mem_takeWhile_imp h1
    · exact hdrop c (List.mem_reverse.mpr h2)
  · intro h
    have : cs.dropWhile Char.isWhitespace = [] := List.dropWhile_eq_nil_iff.mpr h
    simp [trimList, this]

theorem jsTrim_eq_empty_iff (s : String) :
    jsTrim s = "" ↔ ∀ c ∈ s.data, c.isWhitespace := by
  rw [jsTrim, stringMk_eq_empty_iff, trimList_eq_nil_iff]

theorem splitOnChar_of_not_mem {sep : Char} {cs : List Char} (h : sep ∉ cs) :
    splitOnChar sep cs = [cs] := by
  induction cs with
  | nil => rfl
  | cons c rest ih =>
    have hc : ¬c = sep := fun hcs => h (hcs ▸ List.mem_cons_self c rest)
    have hrest : sep ∉ rest := fun hr => h (List.mem_cons_of_mem c hr)
    rw [splitOnChar, if_neg hc, ih hrest]

theorem digitChar_toNat_sub : ∀ n, n < 10 → (Nat.digitChar n).toNat - 48 = n := by decide

theorem toDigitsCore_eq_natDigits :
    ∀ (fuel n : ℕ) (ds : List Char), n < fuel →
      Nat.toDigitsCore 10 fuel n ds = natDigits n ++ ds := by
  intro fuel
  induction fuel with
  | zero => omega
  | succ f ih =>
    intro n ds h
    by_cases h10 : n / 10 = 0
    · have hn : n < 10 := by omega
      simp only [Nat.toDigitsCore, if_pos h10]
      rw [natDigits, dif_pos hn, Nat.mod_eq_of_lt hn]
      rfl
    · have hn : ¬n < 10 := by omega
      simp only [Nat.toDigitsCore, if_neg h10]
      rw [ih (n / 10) (Nat.digitChar (n % 10) :: ds) (by omega)]
      conv_rhs => rw [natDigits]
      rw [dif_neg hn]
      simp

theorem natDigits_foldl :
    ∀ (n : ℕ), ∀ (a : ℕ),
      (natDigits n).foldl (fun acc c => 10 * acc + (c.toNat - 48)) a
        = a * 10 ^ (natDigits n).length + n := by
  intro n
  induction n using Nat.strongRecOn with
  | ind n ih =>
    intro a
    by_cases hn : n < 10
    · rw [natDigits, dif_pos hn]
      simp [digitChar_toNat_sub n hn]
      omega
    · rw [natDigits, dif_neg hn]
      rw [List.foldl_append, ih (n / 10) (Nat.div_lt_self (by omega) (by omega)) a]
      have hm : n % 10 < 10 := Nat.mod_lt _ (by omega)
      simp [digitChar_toNat_sub _ hm]
      rw [Nat.pow_succ]
      have := Nat.div_add_mod n 10
      ring_nf
      omega

theorem natDigits_injective : ∀ m n : ℕ, natDigits m = natDigits n → m = n := by
  intro m n h
  have hm := natDigits_foldl m 0
  have hn := natDigits_foldl n 0
  rw [h] at hm
  omega

theorem natRepr_eq_natDigits (n : ℕ) : Nat.repr n = ⟨natDigits n⟩ := by
  show (Nat.toDigits 10 n).asString = _
  rw [Nat.toDigits, toDigitsCore_eq_natDigits (n + 1) n [] (Nat.lt_succ_self n)]
  simp [List.asString]

theorem natRepr_injective : ∀ m n : ℕ, Nat.repr m = Nat.repr n → m = n := by
  intro m n h
  rw [natRepr_eq_natDigits, natRepr_eq_natDigits] at h
  exact natDigits_injective m n (by simpa using congrArg String.data h)

theorem pointId_injective :
    ∀ m n : ℕ, "point-" ++ Nat.repr m = "point-" ++ Nat.repr n → m = n := by
  intro m n h
  have hd := congrArg String.data h
  simp only [String.data_append] at hd
  have hdd : (Nat.repr m).data = (Nat.repr n).data := List.append_cancel_left hd
  exact natRepr_injective m n (congrArg String.mk hdd)

/-! ### Claim theorems: DMS accumulation and the materializer failure path -/

/-- C4: for every token of 1 to 3 dash-separated components that all parse
as numbers, `dmsToDecimal` returns degrees + minutes/60 + seconds/3600
using only the components present; in particular `dmsToDecimal "12" = 12`,
`dmsToDecimal "12-30" = 12.5" and `dmsToDecimal "12-30-36" = 12.51`
exactly (rational model). -/
theorem dmsToDecimal_accumulation :
    (∀ s a, dmsParts s = [some a] → dmsToDecimal s = some a) ∧
    (∀ s a b, dmsParts s = [some a, some b] → dmsToDecimal s = some (a + b / 60)) ∧
    (∀ s a b c, dmsParts s = [some a, some b, some c] →
      dmsToDecimal s = some (a + b / 60 + c / 3600)) ∧
    dmsToDecimal "12" = some 12 ∧ dmsToDecimal "12-30" = some (25 / 2) ∧
    dmsToDecimal "12-30-36" = some (1251 / 100) := by
  refine ⟨?_, ?_, ?_, by decide, by decide, by decide⟩
  · intro s a h
    simp [dmsToDecimal, h]
  · intro s a b h
    simp [dmsToDecimal, h]
  · intro s a b c h
    simp [dmsToDecimal, h]

/-- Witness for C4 at the concrete token `"12-30"`. -/
theorem dmsToDecimal_accumulation_witness :
    dmsParts "12-30" = [some 12, some 30] ∧ dmsToDecimal "12-30" = some (12 + 30 / 60) :=
  ⟨by decide, dmsToDecimal_accumulation.2.1 "12-30" 12 30 (by decide)⟩

/-- C10: on a token with four or more dash-separated components,
`dmsToDecimal` does not fail on the count: if every component parses the
result is computed from the first three only, but a parse failure in any
component — including beyond the third — yields the `NaN` sentinel. -/
theorem dmsToDecimal_extra_components :
    ∀ s, 4 ≤ (dmsParts s).length →
      ((∀ p ∈ dmsParts s, p.isSome) →
        dmsToDecimal s =
          some (((dmsParts s).getD 0 none).getD 0 + ((dmsParts s).getD 1 none).getD 0 / 60
            + ((dmsParts s).getD 2 none).getD 0 / 3600)) ∧
      ((∃ p ∈ dmsParts s, p = none) → dmsToDecimal s = none) := by
  intro s hlen
  constructor
  · intro hall
    have hany : ¬((dmsParts s).any Option.isNone = true) := by
      rw [List.any_eq_true]
      rintro ⟨p, hp, hnone⟩
      have hs := hall p hp
      cases p
      · exact absurd hs (by simp)
      · simp at hnone
    have hidx : ∀ i, i < (dmsParts s).length →
        ((dmsParts s).map (fun p => p.getD 0)).getD i 0 = ((dmsParts s).getD i none).getD 0 := by
      intro i hi
      rw [List.getD_eq_getElem?_getD, List.getD_eq_getElem?_getD, List.getElem?_map,
        List.getElem?_eq_getElem hi]
      simp
    simp only [dmsToDecimal]
    rw [if_neg hany, if_pos (by omega : 1 ≤ (dmsParts s).length),
      if_pos (by omega : 2 ≤ (dmsParts s).length),
      if_pos (by omega : 3 ≤ (dmsParts s).length),
      hidx 0 (by omega), hidx 1 (by omega), hidx 2 (by omega)]
  · rintro ⟨p, hp, rfl⟩
    simp only [dmsToDecimal]
    rw [if_pos (List.any_eq_true.mpr ⟨none, hp, rfl⟩)]

/-- Witness for C10 at `"1-2-3-4"` (all components numeric, fourth ignored)
and `"1-2-3-x"` (failure beyond the third component). -/
theorem dmsToDecimal_extra_components_witness :
    (4 ≤ (dmsParts "1-2-3-4").length ∧ (∀ p ∈ dmsParts "1-2-3-4", p.isSome) ∧
      dmsToDecimal "1-2-3-4" = some (1 + 2 / 60 + 3 / 3600)) ∧
    (4 ≤ (dmsParts "1-2-3-x").length ∧ (∃ p ∈ dmsParts "1-2-3-x", p = none) ∧
      dmsToDecimal "1-2-3-x" = none) :=
  ⟨⟨by decide, by decide,
      ((dmsToDecimal_extra_components "1-2-3-4" (by decide)).1 (by decide)).trans (by decide)⟩,
    ⟨by decide, by decide,
      (dmsToDecimal_extra_components "1-2-3-x" (by decide)).2 (by decide)⟩⟩

/-- C2: when the first row's header keys contain no coordinate-column
candidate, the materialization returns the explicit failure result with a
human-readable message and zero points (and, being a total function, it
cannot throw). -/
theorem processUploadedCsv_missing_coordinate_column :
    ∀ (firstRow : RawRow) (rest : List RawRow),
      findCoordHeaderKey (firstRow.map Prod.fst) = none →
      processUploadedCsv (firstRow :: rest) =
        { points := [],
          error := some "Required 'Coordinates' column not found. Please check CSV format." } := by
  intro firstRow rest h
  simp [processUploadedCsv, h]

/-- Witness for C2 at a one-row input with only a `Name` column. -/
theorem processUploadedCsv_missing_coordinate_column_witness :
    findCoordHeaderKey (([("Name", "x")] : RawRow).map Prod.fst) = none ∧
    processUploadedCsv [[("Name", "x")]] =
      { points := [],
        error := some "Required 'Coordinates' column not found. Please check CSV format." } :=
  ⟨by decide, processUploadedCsv_missing_coordinate_column [("Name", "x")] [] (by decide)⟩

/-! ### Helper lemmas about the coordinate parser and the materializer -/

theorem ite_map_neg_eq_some (b : Prop) [Decidable b] (o : Option ℚ) (x : ℚ)
    (h : (if b then o.map Neg.neg else o) = some x) :
    ∃ d, o = some d ∧ x = (if b then -d else d) := by
  split at h
  case isTrue hb =>
    obtain ⟨d, hd, hx⟩ := Option.map_eq_some'.mp h
    exact ⟨d, hd, by rw [if_pos hb, ← hx]⟩
  case isFalse hb =>
    exact ⟨x, h, by rw [if_neg hb]⟩

theorem parse_entry_inversion :
    ∀ s la lo, parseSingleCoordinateEntry s = some (la, lo) →
      ∃ latNums latDir lonNums lonDir dla dlo,
        matchNumsDir (nthPiece (jsSplitOnChar '/' s) 0) ['N', 'S'] = some (latNums, latDir) ∧
        matchNumsDir (nthPiece (jsSplitOnChar '/' s) 1) ['E', 'W'] = some (lonNums, lonDir) ∧
        dmsToDecimal latNums = some dla ∧ dmsToDecimal lonNums = some dlo ∧
        la = (if latDir.toUpper = 'S' then -dla else dla) ∧
        lo = (if lonDir.toUpper = 'W' then -dlo else dlo) ∧
        -90 ≤ la ∧ la ≤ 90 ∧ -180 ≤ lo ∧ lo ≤ 180 := by
  intro s la lo h
  simp only [parseSingleCoordinateEntry] at h
  split at h
  · exact absurd h (by simp)
  · split at h
    · exact absurd h (by simp)
    · cases hlat : matchNumsDir (nthPiece (jsSplitOnChar '/' s) 0) ['N', 'S'] with
      | none =>
        simp only [hlat] at h
        exact absurd h (by simp)
      | some latPair =>
        obtain ⟨latNums, latDir⟩ := latPair
        simp only [hlat] at h
        cases hlon : matchNumsDir (nthPiece (jsSplitOnChar '/' s) 1) ['E', 'W'] with
        | none =>
          simp only [hlon] at h
          exact absurd h (by simp)
        | some lonPair =>
          obtain ⟨lonNums, lonDir⟩ := lonPair
          simp only [hlon] at h
          cases hLV : (if latDir.toUpper = 'S' then (dmsToDecimal latNums).map Neg.neg
              else dmsToDecimal latNums) with
          | none =>
            simp only [hLV] at h
            exact absurd h (by simp)
          | some la2 =>
            simp only [hLV] at h
            cases hLoV : (if lonDir.toUpper = 'W' then (dmsToDecimal lonNums).map Neg.neg
                else dmsToDecimal lonNums) with
            | none =>
              simp only [hLoV] at h
              exact absurd h (by simp)
            | some lo2 =>
              simp only [hLoV] at h
              split at h
              · exact absurd h (by simp)
              case isFalse hnb =>
                obtain ⟨h1, h2⟩ : la2 = la ∧ lo2 = lo := by simpa using h
                push_neg at hnb
                obtain ⟨dla, hdla, hla2⟩ := ite_map_neg_eq_some _ _ _ hLV
                obtain ⟨dlo, hdlo, hlo2⟩ := ite_map_neg_eq_some _ _ _ hLoV
                subst h1
                subst h2
                exact ⟨latNums, latDir, lonNums, lonDir, dla, dlo, rfl, rfl, hdla, hdlo,
                  hla2, hlo2, hnb.1, hnb.2.1, hnb.2.2.1, hnb.2.2.2⟩

theorem parse_entry_bounds :
    ∀ s la lo, parseSingleCoordinateEntry s = some (la, lo) →
      -90 ≤ la ∧ la ≤ 90 ∧ -180 ≤ lo ∧ lo ≤ 180 := by
  intro s la lo h
  obtain ⟨_, _, _, _, _, _, _, _, _, _, _, _, hb⟩ := parse_entry_inversion s la lo h
  exact hb

theorem mem_processParts (nm cat : String) (row : RawRow) :
    ∀ (parts : List String) (ctr : ℕ) (p : ProcessedPoint),
      p ∈ (processParts nm cat row ctr parts).1 →
      parseSingleCoordinateEntry p.originalCoords = some (p.latitude, p.longitude) := by
  intro parts
  induction parts with
  | nil =>
    intro ctr p hp
    simp [processParts] at hp
  | cons part rest ih =>
    intro ctr p hp
    simp only [processParts] at hp
    split at hp
    · exact ih _ _ hp
    · cases hpp : parseSingleCoordinateEntry part with
      | none =>
        simp only [hpp] at hp
        exact ih _ _ hp
      | some v =>
        obtain ⟨la, lo⟩ := v
        simp only [hpp] at hp
        rcases List.mem_cons.mp hp with rfl | hmem
        · simpa using hpp
        · exact ih _ _ hmem

theorem mem_processRow (ck : String) (nk catk : Option String) (ctr : ℕ) (row : RawRow)
    (p : ProcessedPoint) (hp : p ∈ (processRow ck nk catk ctr row).1) :
    parseSingleCoordinateEntry p.originalCoords = some (p.latitude, p.longitude) := by
  simp only [processRow] at hp
  split at hp
  · simp at hp
  · exact mem_processParts _ _ _ _ _ _ hp

theorem mem_processRows (ck : String) (nk catk : Option String) :
    ∀ (rows : List RawRow) (ctr : ℕ) (p : ProcessedPoint),
      p ∈ processRows ck nk catk ctr rows →
      parseSingleCoordinateEntry p.originalCoords = some (p.latitude, p.longitude) := by
  intro rows
  induction rows with
  | nil =>
    intro ctr p hp
    simp [processRows] at hp
  | cons row rest ih =>
    intro ctr p hp
    simp only [processRows] at hp
    rcases List.mem_append.mp hp with h1 | h2
    · exact mem_processRow _ _ _ _ _ _ h1
    · exact ih _ _ h2

/-! ### Claim theorems: bounds, hemisphere sign, rejection cases -/

/-- C3: every point emitted by materialization has `-90 ≤ latitude ≤ 90`
and `-180 ≤ longitude ≤ 180`; equivalently, a successful
`parseSingleCoordinateEntry` result is always within bounds (out-of-range
values yield `none` instead). -/
theorem materialized_bounds :
    (∀ s la lo, parseSingleCoordinateEntry s = some (la, lo) →
      -90 ≤ la ∧ la ≤ 90 ∧ -180 ≤ lo ∧ lo ≤ 180) ∧
    (∀ data p, p ∈ (processUploadedCsv data).points →
      -90 ≤ p.latitude ∧ p.latitude ≤ 90 ∧ -180 ≤ p.longitude ∧ p.longitude ≤ 180) := by
  refine ⟨parse_entry_bounds, ?_⟩
  intro data p hp
  cases data with
  | nil => simp [processUploadedCsv] at hp
  | cons firstRow rest =>
    simp only [processUploadedCsv] at hp
    cases hck : findCoordHeaderKey (firstRow.map Prod.fst) with
    | none =>
      simp only [hck] at hp
      simp at hp
    | some ck =>
      simp only [hck] at hp
      exact parse_entry_bounds _ _ _ (mem_processRows _ _ _ _ _ _ hp)

/-- Witness for C3 at the point parsed from `"12-30N/92-50E"`. -/
theorem materialized_bounds_witness :
    parseSingleCoordinateEntry "12-30N/92-50E" = some (25 / 2, 557 / 6) ∧
    (-90 ≤ (25 / 2 : ℚ) ∧ (25 / 2 : ℚ) ≤ 90 ∧ -180 ≤ (557 / 6 : ℚ) ∧ (557 / 6 : ℚ) ≤ 180) :=
  ⟨by decide, materialized_bounds.1 "12-30N/92-50E" (25 / 2) (557 / 6) (by decide)⟩

/-- C5: for every successfully parsed pair the latitude is negated exactly
when its hemisphere letter is `S`/`s` and the longitude exactly when it is
`W`/`w`; in particular `"12-30N/92-50E"` gives `(+12.5, +92.8333…)` and
`"12-30S/92-50W"` gives `(-12.5, -92.8333…)` (rational model: `557/6`). -/
theorem parse_hemisphere_sign :
    (∀ s la lo, parseSingleCoordinateEntry s = some (la, lo) →
      ∃ latNums latDir lonNums lonDir dla dlo,
        matchNumsDir (nthPiece (jsSplitOnChar '/' s) 0) ['N', 'S'] = some (latNums, latDir) ∧
        matchNumsDir (nthPiece (jsSplitOnChar '/' s) 1) ['E', 'W'] = some (lonNums, lonDir) ∧
        dmsToDecimal latNums = some dla ∧ dmsToDecimal lonNums = some dlo ∧
        la = (if latDir.toUpper = 'S' then -dla else dla) ∧
        lo = (if lonDir.toUpper = 'W' then -dlo else dlo)) ∧
    parseSingleCoordinateEntry "12-30N/92-50E" = some (25 / 2, 557 / 6) ∧
    parseSingleCoordinateEntry "12-30S/92-50W" = some (-(25 / 2), -(557 / 6)) := by
  refine ⟨?_, by decide, by decide⟩
  intro s la lo h
  obtain ⟨ln, ld, lon2, od, dla, dlo, h1, h2, h3, h4, h5, h6, _⟩ :=
    parse_entry_inversion s la lo h
  exact ⟨ln, ld, lon2, od, dla, dlo, h1, h2, h3, h4, h5, h6⟩

/-- Witness for C5 at the concrete southern/western token. -/
theorem parse_hemisphere_sign_witness :
    parseSingleCoordinateEntry "12-30S/92-50W" = some (-(25 / 2), -(557 / 6)) ∧
    ∃ latNums latDir lonNums lonDir dla dlo,
      matchNumsDir (nthPiece (jsSplitOnChar '/' "12-30S/92-50W") 0) ['N', 'S']
        = some (latNums, latDir) ∧
      matchNumsDir (nthPiece (jsSplitOnChar '/' "12-30S/92-50W") 1) ['E', 'W']
        = some (lonNums, lonDir) ∧
      dmsToDecimal latNums = some dla ∧ dmsToDecimal lonNums = some dlo ∧
      (-(25 / 2) : ℚ) = (if latDir.toUpper = 'S' then -dla else dla) ∧
      (-(557 / 6) : ℚ) = (if lonDir.toUpper = 'W' then -dlo else dlo) :=
  ⟨by decide, parse_hemisphere_sign.1 "12-30S/92-50W" (-(25 / 2)) (-(557 / 6)) (by decide)⟩

/-- C6 counterexample: `"12-30N/92-50E/x"` splits on `/` into three
pieces — not "exactly a latitude half and a longitude half" — yet the
parser silently keeps the first two pieces and succeeds instead of
returning null, because JS array destructuring ignores the extra pieces. -/
theorem parse_slash_counterexample :
    (jsSplitOnChar '/' "12-30N/92-50E/x").length = 3 ∧
    parseSingleCoordinateEntry "12-30N/92-50E/x" = some (25 / 2, 557 / 6) ∧
    parseSingleCoordinateEntry "12-30N/92-50E/x" ≠ none :=
  ⟨by decide, by decide, by decide⟩

/-- C6 amended: the parser returns `none` (and, being total, never throws)
for inputs that are empty or whitespace-only, exactly `"-"` or `"??"`,
whose first or second `/`-piece is missing or empty (pieces beyond the
second are ignored rather than causing rejection), that fail either
hemisphere-regex match, or whose latitude or longitude value is the
not-a-number sentinel. -/
theorem parse_rejections :
    (∀ s, jsTrim s = "" → parseSingleCoordinateEntry s = none) ∧
    parseSingleCoordinateEntry "-" = none ∧
    parseSingleCoordinateEntry "??" = none ∧
    parseSingleCoordinateEntry "" = none ∧
    (∀ s, nthPiece (jsSplitOnChar '/' s) 0 = "" ∨ nthPiece (jsSplitOnChar '/' s) 1 = "" →
      parseSingleCoordinateEntry s = none) ∧
    (∀ s, matchNumsDir (nthPiece (jsSplitOnChar '/' s) 0) ['N', 'S'] = none →
      parseSingleCoordinateEntry s = none) ∧
    (∀ s, matchNumsDir (nthPiece (jsSplitOnChar '/' s) 1) ['E', 'W'] = none →
      parseSingleCoordinateEntry s = none) ∧
    (∀ s latNums latDir,
      matchNumsDir (nthPiece (jsSplitOnChar '/' s) 0) ['N', 'S'] = some (latNums, latDir) →
      dmsToDecimal latNums = none → parseSingleCoordinateEntry s = none) ∧
    (∀ s lonNums lonDir,
      matchNumsDir (nthPiece (jsSplitOnChar '/' s) 1) ['E', 'W'] = some (lonNums, lonDir) →
      dmsToDecimal lonNums = none → parseSingleCoordinateEntry s = none) := by
  refine ⟨?_, by decide, by decide, by decide, ?_, ?_, ?_, ?_, ?_⟩
  · intro s h
    simp [parseSingleCoordinateEntry, h]
  · intro s h
    simp only [parseSingleCoordinateEntry]
    split
    · rfl
    · rfl
  · intro s hm
    simp only [parseSingleCoordinateEntry]
    split
    · rfl
    · split
      · rfl
      · simp [hm]
  · intro s hm
    simp only [parseSingleCoordinateEntry]
    split
    · rfl
    · split
      · rfl
      · cases hlat : matchNumsDir (nthPiece (jsSplitOnChar '/' s) 0) ['N', 'S'] with
        | none => simp [hlat]
        | some p =>
          obtain ⟨n, d⟩ := p
          simp [hlat, hm]
  · intro s latNums latDir hm hd
    simp only [parseSingleCoordinateEntry]
    split
    · rfl
    · split
      · rfl
      · simp only [hm, hd]
        cases hlon : matchNumsDir (nthPiece (jsSplitOnChar '/' s) 1) ['E', 'W'] with
        | none => simp [hlon]
        | some p =>
          obtain ⟨n2, d2⟩ := p
          simp only [hlon]
          rcases hv : (if d2.toUpper = 'W' then (dmsToDecimal n2).map Neg.neg
              else dmsToDecimal n2) with _ | v <;> simp [hv]
  · intro s lonNums lonDir hm hd
    simp only [parseSingleCoordinateEntry]
    split
    · rfl
    · split
      · rfl
      · cases hlat : matchNumsDir (nthPiece (jsSplitOnChar '/' s) 0) ['N', 'S'] with
        | none => simp [hlat]
        | some p =>
          obtain ⟨n, d⟩ := p
          simp only [hlat, hm, hd]
          rcases hv : (if d.toUpper = 'S' then (dmsToDecimal n).map Neg.neg
              else dmsToDecimal n) with _ | v <;> simp [hv]

/-- Witness for C6 (amended) at a whitespace-only input. -/
theorem parse_rejections_witness :
    jsTrim "  " = "" ∧ parseSingleCoordinateEntry "  " = none :=
  ⟨by decide, parse_rejections.1 "  " (by decide)⟩

/-! ### Claim theorems: filter/sort utilities -/

/-- C7 counterexample: the worker's `optimizedFilter`, called with the
`'all'` sentinel, compares it as a literal category and excludes a point
whose category is `"city"`, while `createOptimizedFilter` passes the point
through. -/
theorem sentinel_filter_counterexample :
    optimizedFilter
        [{ id := "point-0", latitude := 25 / 2, longitude := 557 / 6,
           originalName := "A", category := "city",
           originalCoords := "12-30N/92-50E", rowData := [] }] "all" "" none = [] ∧
    createOptimizedFilter
        [{ id := "point-0", latitude := 25 / 2, longitude := 557 / 6,
           originalName := "A", category := "city",
           originalCoords := "12-30N/92-50E", rowData := [] }] "all" "" none =
      [{ id := "point-0", latitude := 25 / 2, longitude := 557 / 6,
         originalName := "A", category := "city",
         originalCoords := "12-30N/92-50E", rowData := [] }] :=
  ⟨by decide, by decide⟩

/-- C7 amended: `createOptimizedFilter` treats both `""` and the `'all'`
sentinel as pass-through-all (no point is compared against the sentinel);
the worker's `optimizedFilter` passes through only for `""` and compares
`'all'` as a literal category string. -/
theorem sentinel_filter_amended :
    (∀ pts q s, createOptimizedFilter pts "all" q s = sortStep s (searchStep q pts)) ∧
    (∀ pts q s, createOptimizedFilter pts "" q s = sortStep s (searchStep q pts)) ∧
    (∀ pts q s, optimizedFilter pts "" q s = sortStep s (workerSearchStep q pts)) ∧
    (∀ pts q s, optimizedFilter pts "all" q s =
      sortStep s (workerSearchStep q (pts.filter (fun p => p.category == "all")))) := by
  refine ⟨?_, ?_, ?_, ?_⟩ <;> intro pts q s <;>
    simp [createOptimizedFilter, optimizedFilter, categoryStep, workerCategoryStep]

theorem sortLe_total (cfg : SortConfig) (a b : ProcessedPoint) :
    (sortLe cfg a b || sortLe cfg b a) = true := by
  unfold sortLe
  split_ifs <;> simp only [Bool.or_eq_true, decide_eq_true_eq] <;> exact le_total _ _

theorem sortLe_trans (cfg : SortConfig) (a b c : ProcessedPoint)
    (h1 : sortLe cfg a b = true) (h2 : sortLe cfg b c = true) : sortLe cfg a c = true := by
  unfold sortLe at *
  split_ifs at * <;> simp only [decide_eq_true_eq] at * <;>
    first
    | exact le_trans h1 h2
    | exact le_trans h2 h1

theorem mem_sortStep {cfg : Option SortConfig} {l : List ProcessedPoint}
    {p : ProcessedPoint} : p ∈ sortStep cfg l ↔ p ∈ l := by
  cases cfg with
  | none => exact Iff.rfl
  | some c => exact (List.mergeSort_perm l (sortLe c)).mem_iff

theorem sortStep_sorted_fix (cfg : SortConfig) (l : List ProcessedPoint) :
    sortStep (some cfg) (sortStep (some cfg) l) = sortStep (some cfg) l := by
  show (l.mergeSort (sortLe cfg)).mergeSort (sortLe cfg) = l.mergeSort (sortLe cfg)
  exact List.mergeSort_of_sorted
    (List.sorted_mergeSort (fun a b c => sortLe_trans cfg a b c)
      (fun a b => sortLe_total cfg a b) l)

theorem mem_of_searchStep {q : String} {l : List ProcessedPoint} {p : ProcessedPoint}
    (hp : p ∈ searchStep q l) : p ∈ l := by
  unfold searchStep at hp
  split at hp
  · exact List.mem_of_mem_filter hp
  · exact hp

theorem categoryStep_eq_self_of (f : String) (l : List ProcessedPoint)
    (h : ∀ p ∈ l, (f ≠ "" ∧ f ≠ "all") → (p.category == f) = true) :
    categoryStep f l = l := by
  unfold categoryStep
  split
  case isTrue hf => exact List.filter_eq_self.mpr (fun p hp => h p hp hf)
  case isFalse => rfl

theorem searchStep_eq_self_of (q : String) (l : List ProcessedPoint)
    (h : ∀ p ∈ l, jsTrim q ≠ "" → matchesSearch (jsToLower q) p = true) :
    searchStep q l = l := by
  unfold searchStep
  split
  case isTrue hq => exact List.filter_eq_self.mpr (fun p hp => h p hp hq)
  case isFalse => rfl

theorem categoryStep_mem_pred {f : String} {l : List ProcessedPoint} {p : ProcessedPoint}
    (hp : p ∈ categoryStep f l) (hf : f ≠ "" ∧ f ≠ "all") : (p.category == f) = true := by
  unfold categoryStep at hp
  rw [if_pos hf] at hp
  exact (List.mem_filter.mp hp).2

theorem searchStep_mem_pred {q : String} {l : List ProcessedPoint} {p : ProcessedPoint}
    (hp : p ∈ searchStep q l) (hq : jsTrim q ≠ "") :
    matchesSearch (jsToLower q) p = true := by
  unfold searchStep at hp
  rw [if_pos hq] at hp
  exact (List.mem_filter.mp hp).2

/-- C8: `createOptimizedFilter` is idempotent — re-running it with the same
category filter, search query and sort specification on its own output
returns the output unchanged. -/
theorem filterAndSort_idempotent :
    ∀ (pts : List ProcessedPoint) (f q : String) (s : Option SortConfig),
      createOptimizedFilter (createOptimizedFilter pts f q s) f q s =
        createOptimizedFilter pts f q s := by
  intro pts f q s
  unfold createOptimizedFilter
  rw [categoryStep_eq_self_of f _ (fun p hp hf =>
      categoryStep_mem_pred (mem_of_searchStep (mem_sortStep.mp hp)) hf)]
  rw [searchStep_eq_self_of q _ (fun p hp hq =>
      searchStep_mem_pred (mem_sortStep.mp hp) hq)]
  cases s with
  | none => rfl
  | some c => exact sortStep_sorted_fix c _

/-! ### Claim theorems: multi-coordinate expansion -/

theorem rowSegments_guard (ck : String) (row : RawRow)
    (h : ∀ s ∈ rowSegments ck row, (parseSingleCoordinateEntry s).isSome) :
    ¬(rowGet row ck = "" ∨ jsTrim (rowGet row ck) = "" ∨ rowGet row ck = "-" ∨
      rowGet row ck = "??") := by
  rintro (hc | hc | hc | hc)
  · have hseg : rowSegments ck row = [""] := by rw [rowSegments, hc]; decide
    have := h "" (by rw [hseg]; exact List.mem_singleton.mpr rfl)
    revert this
    decide
  · have hws : ∀ c ∈ (rowGet row ck).data, c.isWhitespace := (jsTrim_eq_empty_iff _).mp hc
    have hplus : '+' ∉ (rowGet row ck).data := fun hmem =>
      absurd (hws _ hmem) (by decide)
    have hseg : rowSegments ck row = [jsTrim (rowGet row ck)] := by
      rw [rowSegments, jsSplitOnChar, splitOnChar_of_not_mem hplus]
      rfl
    rw [hc] at hseg
    have := h "" (by rw [hseg]; exact List.mem_singleton.mpr rfl)
    revert this
    decide
  · have hseg : rowSegments ck row = ["-"] := by rw [rowSegments, hc]; decide
    have := h "-" (by rw [hseg]; exact List.mem_singleton.mpr rfl)
    revert this
    decide
  · have hseg : rowSegments ck row = ["??"] := by rw [rowSegments, hc]; decide
    have := h "??" (by rw [hseg]; exact List.mem_singleton.mpr rfl)
    revert this
    decide

theorem processParts_spec (nm cat : String) (row : RawRow) :
    ∀ (parts : List String) (ctr : ℕ),
      (∀ s ∈ parts, (parseSingleCoordinateEntry s).isSome) →
      (processParts nm cat row ctr parts).2 = ctr + parts.length ∧
      (processParts nm cat row ctr parts).1.length = parts.length ∧
      (processParts nm cat row ctr parts).1.map ProcessedPoint.originalCoords = parts ∧
      (processParts nm cat row ctr parts).1.map ProcessedPoint.id
        = (List.range parts.length).map (fun i => "point-" ++ Nat.repr (ctr + i)) ∧
      ∀ p ∈ (processParts nm cat row ctr parts).1,
        p.rowData = row ∧ p.originalName = nm ∧ p.category = cat ∧
        parseSingleCoordinateEntry p.originalCoords = some (p.latitude, p.longitude) := by
  intro parts
  induction parts with
  | nil =>
    intro ctr h
    simp [processParts]
  | cons part rest ih =>
    intro ctr h
    have hpart : (parseSingleCoordinateEntry part).isSome :=
      h part (List.mem_cons_self _ _)
    have hne : ¬(part = "" ∨ part = "-" ∨ part = "??") := by
      rintro (rfl | rfl | rfl) <;> revert hpart <;> decide
    obtain ⟨vla, hval⟩ : ∃ v, parseSingleCoordinateEntry part = some v :=
      Option.isSome_iff_exists.mp hpart
    obtain ⟨la, lo⟩ := vla
    have hrest := ih (ctr + 1) (fun s hs => h s (List.mem_cons_of_mem _ hs))
    simp only [processParts, if_neg hne, hval]
    refine ⟨?_, ?_, ?_, ?_, ?_⟩
    · simp only [List.length_cons]
      rw [hrest.1]
      omega
    · simp only [List.length_cons]
      simp [hrest.2.1]
    · simp [hrest.2.2.1]
    · simp only [List.map_cons, hrest.2.2.2.1, List.length_cons, List.range_succ_eq_map,
        List.map_map]
      congr 1
      apply List.map_congr_left
      intro a _
      simp only [Function.comp_apply]
      congr 2
      omega
    · intro p hp
      rcases List.mem_cons.mp hp with rfl | hmem
      · exact ⟨rfl, rfl, rfl, by simpa using hval⟩
      · exact hrest.2.2.2.2 p hmem

/-- C1 (amended): a row whose coordinate field splits into N trimmed
`+`-segments that all parse yields exactly N records sharing the same
`rowData`, `originalName` and `category`, with pairwise distinct ids
(`point-<ctr>` … `point-<ctr+N-1>`) and with each record's
`originalCoords` equal to its own segment and its latitude/longitude equal
to that segment's parse (so those are distinct only when the segments /
parsed values are); the 3-row scenario (1 + 2 + 0) yields exactly 3
records. -/
theorem multi_coordinate_expansion :
    (∀ (ck : String) (nk catk : Option String) (ctr : ℕ) (row : RawRow),
      (∀ s ∈ rowSegments ck row, (parseSingleCoordinateEntry s).isSome) →
      (processRow ck nk catk ctr row).1.length = (rowSegments ck row).length ∧
      (processRow ck nk catk ctr row).1.map ProcessedPoint.originalCoords
        = rowSegments ck row ∧
      ((processRow ck nk catk ctr row).1.map ProcessedPoint.id).Nodup ∧
      (∀ p ∈ (processRow ck nk catk ctr row).1,
        p.rowData = row ∧
        parseSingleCoordinateEntry p.originalCoords = some (p.latitude, p.longitude)) ∧
      (∀ p q, p ∈ (processRow ck nk catk ctr row).1 →
        q ∈ (processRow ck nk catk ctr row).1 →
        p.originalName = q.originalName ∧ p.category = q.category ∧
        p.rowData = q.rowData)) ∧
    (processUploadedCsv
        [[("Coordinates", "12-30N/92-50E")],
         [("Coordinates", "12-30N/92-50E+13-00N/93-00E")],
         [("Coordinates", "??")]]).points.length = 3 := by
  refine ⟨?_, by decide⟩
  intro ck nk catk ctr row h
  have hguard := rowSegments_guard ck row h
  simp only [processRow, if_neg hguard]
  refine ⟨(processParts_spec _ _ _ _ _ h).2.1, (processParts_spec _ _ _ _ _ h).2.2.1, ?_, ?_, ?_⟩
  · rw [(processParts_spec _ _ _ _ _ h).2.2.2.1]
    apply List.Nodup.map ?_ (List.nodup_range _)
    intro i j hij
    have := pointId_injective (ctr + i) (ctr + j) hij
    omega
  · intro p hp
    have hspec := (processParts_spec _ _ _ _ _ h).2.2.2.2 p hp
    exact ⟨hspec.1, hspec.2.2.2⟩
  · intro p q hp hq
    have hsp := (processParts_spec _ _ _ _ _ h).2.2.2.2 p hp
    have hsq := (processParts_spec _ _ _ _ _ h).2.2.2.2 q hq
    exact ⟨hsp.2.1.trans hsq.2.1.symm, hsp.2.2.1.trans hsq.2.2.1.symm,
      hsp.1.trans hsq.1.symm⟩

/-- C1 counterexample: a row whose coordinate field repeats the same
segment (`"12-30N/92-50E+12-30N/92-50E"`) satisfies the claim's hypothesis
(all `+`-joined segments parse successfully), yet the two emitted records
share identical `originalCoords`, `latitude` and `longitude` — only the
ids are distinct — refuting the claimed pairwise distinctness. -/
theorem multi_coordinate_expansion_counterexample :
    (∀ s ∈ rowSegments "Coordinates" [("Coordinates", "12-30N/92-50E+12-30N/92-50E")],
      (parseSingleCoordinateEntry s).isSome) ∧
    (processUploadedCsv [[("Coordinates", "12-30N/92-50E+12-30N/92-50E")]]).points.length
      = 2 ∧
    ((processUploadedCsv [[("Coordinates", "12-30N/92-50E+12-30N/92-50E")]]).points.map
        ProcessedPoint.originalCoords) = ["12-30N/92-50E", "12-30N/92-50E"] ∧
    ¬((processUploadedCsv [[("Coordinates", "12-30N/92-50E+12-30N/92-50E")]]).points.map
        ProcessedPoint.originalCoords).Nodup ∧
    ¬((processUploadedCsv [[("Coordinates", "12-30N/92-50E+12-30N/92-50E")]]).points.map
        ProcessedPoint.latitude).Nodup :=
  ⟨by decide, by decide, by decide, by decide, by decide⟩

/-- Witness for C1 (amended) at the two-segment row. -/
theorem multi_coordinate_expansion_witness :
    (∀ s ∈ rowSegments "Coordinates" [("Coordinates", "12-30N/92-50E+13-00N/93-00E")],
      (parseSingleCoordinateEntry s).isSome) ∧
    (processRow "Coordinates" none none 0
        [("Coordinates", "12-30N/92-50E+13-00N/93-00E")]).1.length
      = (rowSegments "Coordinates" [("Coordinates", "12-30N/92-50E+13-00N/93-00E")]).length :=
  ⟨by decide,
    (multi_coordinate_expansion.1 "Coordinates" none none 0
      [("Coordinates", "12-30N/92-50E+13-00N/93-00E")] (by decide)).1⟩

/-! ### Claim theorems: the memoized parser refines the pure one -/

theorem cached_miss (cache : CoordCache) (s : String)
    (hg : ¬(s = "" ∨ jsTrim s = "" ∨ s = "-" ∨ s = "??"))
    (hl : cache.lookup s = none) :
    parseSingleCoordinateEntryCached cache s =
      (parseSingleCoordinateEntry s, (s, parseSingleCoordinateEntry s) :: cache) := by
  simp only [parseSingleCoordinateEntryCached, parseSingleCoordinateEntry, if_neg hg, hl]
  split
  · rfl
  · cases hlat : matchNumsDir (nthPiece (jsSplitOnChar '/' s) 0) ['N', 'S'] with
    | none => simp [hlat]
    | some latPair =>
      obtain ⟨latNums, latDir⟩ := latPair
      simp only [hlat]
      cases hlon : matchNumsDir (nthPiece (jsSplitOnChar '/' s) 1) ['E', 'W'] with
      | none => simp [hlon]
      | some lonPair =>
        obtain ⟨lonNums, lonDir⟩ := lonPair
        simp only [hlon]
        rcases hLV : (if latDir.toUpper = 'S' then (dmsToDecimal latNums).map Neg.neg
            else dmsToDecimal latNums) with _ | la2 <;>
          rcases hLoV : (if lonDir.toUpper = 'W' then (dmsToDecimal lonNums).map Neg.neg
              else dmsToDecimal lonNums) with _ | lo2 <;>
          simp only [hLV, hLoV]
        all_goals first
          | rfl
          | (split <;> rfl)

theorem cached_step (cache : CoordCache) (hwf : CacheWF cache) (s : String) :
    (parseSingleCoordinateEntryCached cache s).1 = parseSingleCoordinateEntry s ∧
    CacheWF (parseSingleCoordinateEntryCached cache s).2 := by
  by_cases hg : (s = "" ∨ jsTrim s = "" ∨ s = "-" ∨ s = "??")
  · constructor
    · simp [parseSingleCoordinateEntryCached, parseSingleCoordinateEntry, hg]
    · simp only [parseSingleCoordinateEntryCached, if_pos hg]
      exact hwf
  · cases hl : cache.lookup s with
    | some v =>
      constructor
      · simp only [parseSingleCoordinateEntryCached, if_neg hg, hl]
        exact hwf s v hl
      · simp only [parseSingleCoordinateEntryCached, if_neg hg, hl]
        exact hwf
    | none =>
      rw [cached_miss cache s hg hl]
      refine ⟨rfl, ?_⟩
      intro k v hkv
      by_cases hks : k = s
      · subst hks
        simp [List.lookup] at hkv
        exact hkv.symm
      · have hskip : List.lookup k ((s, parseSingleCoordinateEntry s) :: cache)
            = List.lookup k cache := by
          simp [List.lookup, beq_eq_false_iff_ne.mpr hks]
        rw [hskip] at hkv
        exact hwf k v hkv

theorem runCachedSeq_spec :
    ∀ (ts : List String) (cache : CoordCache), CacheWF cache →
      (runCachedSeq cache ts).1 = ts.map parseSingleCoordinateEntry ∧
      CacheWF (runCachedSeq cache ts).2 := by
  intro ts
  induction ts with
  | nil =>
    intro cache hwf
    exact ⟨rfl, hwf⟩
  | cons t rest ih =>
    intro cache hwf
    have hstep := cached_step cache hwf t
    have hrest := ih _ hstep.2
    simp only [runCachedSeq]
    constructor
    · simp only [List.map_cons]
      rw [hstep.1, hrest.1]
    · exact hrest.2

/-- C9: the memoized `parseSingleCoordinateEntry` of
`src/lib/data-processing.ts` is observationally equivalent to the
cache-free one of `src/app/actions.ts`: starting from any well-formed
cache state (the empty cache, and every state reachable by prior calls —
well-formedness is preserved by each call), every token of a call sequence
returns exactly the cache-free result; the cache never changes a result. -/
theorem cached_parser_equivalent :
    ∀ (cache : CoordCache), CacheWF cache →
      ∀ (ts : List String),
        (runCachedSeq cache ts).1 = ts.map parseSingleCoordinateEntry ∧
        CacheWF (runCachedSeq cache ts).2 :=
  fun cache hwf ts => runCachedSeq_spec ts cache hwf

/-- Witness for C9: the empty cache is well formed, and a sequence with a
repeated token (second occurrence answered from the cache) and a
placeholder returns exactly the cache-free results. -/
theorem cached_parser_equivalent_witness :
    CacheWF [] ∧
    (runCachedSeq [] ["12-30N/92-50E", "12-30N/92-50E", "??"]).1 =
      [some (25 / 2, 557 / 6), some (25 / 2, 557 / 6), none] := by
  have hwf : CacheWF [] := fun k v hkv => by simp [List.lookup] at hkv
  exact ⟨hwf,
    (cached_parser_equivalent [] hwf ["12-30N/92-50E", "12-30N/92-50E", "??"]).1.trans
      (by decide)⟩

end RatReduction
